import Mathlib

/-!
Shallow embedding of the `k-number-utils` library: the `BigIntCoercion`
class (src/bigint-coercion.ts) and the `stringToBigInt` seed encoder
(src/str-to-bigint.ts).

Modelling choices:
* JavaScript `bigint` values are `Int` (arbitrary precision, exact).
* JavaScript strings on the input side are lists of Unicode scalar values
  (`List Char`); on the output side radix renderings are Lean `String`s and
  character conversions are lists of UTF-16 code units (`List Nat`), since
  they may produce lone surrogates that a Lean `String` cannot hold.
* `Number(bigint)` is exact up to `Number.MAX_SAFE_INTEGER = 2^53 - 1` and
  lossy beyond; the lossy region is modelled as `Option.none`.
* The dynamic type checks at the two entry points are modelled over a
  `JSVal` sum type mirroring the JavaScript `typeof` kinds.
-/

/-- Model of `BigInt.asUintN n v`: the non-negative residue of `v` modulo
`2 ^ n`.  `Int` division in Lean is Euclidean, so `v % 2 ^ n` is already the
mathematical non-negative residue. -/
def asUintN (n : Nat) (v : Int) : Int := v % (2 ^ n : Int)

/-- Model of `BigInt.asIntN n v`: the two's-complement reinterpretation of
the `n`-bit residue of `v`, in `[-2^(n-1), 2^(n-1) - 1]`. -/
def asIntN (n : Nat) (v : Int) : Int :=
  if v % (2 ^ n : Int) < 2 ^ (n - 1) then v % (2 ^ n : Int)
  else v % (2 ^ n : Int) - 2 ^ n

/-- Model of the JavaScript `Number(bigint)` conversion: exact for magnitudes
up to `Number.MAX_SAFE_INTEGER = 2^53 - 1`; beyond that the conversion rounds
to a nearby double, modelled here as `none` (possible precision loss). -/
def numberFromBigInt (v : Int) : Option Int :=
  if v.natAbs ≤ 2 ^ 53 - 1 then some v else none

/-- The digit character for a digit value `d < 36`: `0`-`9` then lowercase
`a`-`z`, as used by `BigInt.prototype.toString(radix)`. -/
def digitChar36 (d : Nat) : Char :=
  if d < 10 then Char.ofNat (48 + d) else Char.ofNat (87 + d)

/-- Digit characters of `n` in base `b`, most significant first, prepended to
`acc`; `fuel` bounds the recursion depth (any `fuel > n` is enough). -/
def toDigitsAux (b : Nat) : Nat → Nat → List Char → List Char
  | 0, _, acc => acc
  | fuel + 1, n, acc =>
    if n < b then digitChar36 n :: acc
    else toDigitsAux b fuel (n / b) (digitChar36 (n % b) :: acc)

/-- Base-`b` digit string of a natural number, e.g. `natToString 16 255 = "ff"`:
model of `BigInt.prototype.toString(radix)` on non-negative values. -/
def natToString (b n : Nat) : String := String.mk (toDigitsAux b (n + 1) n [])

/-- Model of `BigInt.prototype.toString(radix)`: a minus sign followed by the
digits of the magnitude for negative values, plain digits otherwise. -/
def bigIntToString (radix : Nat) (v : Int) : String :=
  if v < 0 then "-" ++ natToString radix v.natAbs else natToString radix v.natAbs

/-- UTF-16 code units of the Unicode scalar `c`, as rendered by
`String.fromCodePoint`: one unit below `0x10000`, a surrogate pair at or
above it. -/
def utf16Units (c : Nat) : List Nat :=
  if c < 0x10000 then [c]
  else [0xD800 + (c - 0x10000) / 0x400, 0xDC00 + (c - 0x10000) % 0x400]

/-- The `BigIntCoercion` class of src/bigint-coercion.ts: an immutable
wrapper around one arbitrary-precision integer. -/
structure BigIntCoercion where
  value : Int

namespace BigIntCoercion

/-- `toBigInt()`: identity passthrough. -/
def toBigInt (b : BigIntCoercion) : Int := b.value

/-- `toInt8()`: `Number(BigInt.asIntN(8, value))` (exact, residue below 2^8). -/
def toInt8 (b : BigIntCoercion) : Int := asIntN 8 b.value

/-- `toUint8()`: `Number(BigInt.asUintN(8, value))`. -/
def toUint8 (b : BigIntCoercion) : Int := asUintN 8 b.value

/-- `toInt16()`: `Number(BigInt.asIntN(16, value))`. -/
def toInt16 (b : BigIntCoercion) : Int := asIntN 16 b.value

/-- `toUint16()`: `Number(BigInt.asUintN(16, value))`. -/
def toUint16 (b : BigIntCoercion) : Int := asUintN 16 b.value

/-- `toInt32()`: `Number(BigInt.asIntN(32, value))`. -/
def toInt32 (b : BigIntCoercion) : Int := asIntN 32 b.value

/-- `toUint32()`: `Number(BigInt.asUintN(32, value))`. -/
def toUint32 (b : BigIntCoercion) : Int := asUintN 32 b.value

/-- `toAbsInt32()`: absolute value first, then 31-bit unsigned truncation. -/
def toAbsInt32 (b : BigIntCoercion) : Int :=
  asUintN 31 (if b.value < 0 then -b.value else b.value)

/-- `toUint64()`: `Number(BigInt.asUintN(64, value))`; the `Number`
conversion may lose precision, see `numberFromBigInt`. -/
def toUint64 (b : BigIntCoercion) : Option Int := numberFromBigInt (asUintN 64 b.value)

/-- `toBigInt64()`: `BigInt.asIntN(64, value)` (exact). -/
def toBigInt64 (b : BigIntCoercion) : Int := asIntN 64 b.value

/-- `toBigUint64()`: `BigInt.asUintN(64, value)` (exact). -/
def toBigUint64 (b : BigIntCoercion) : Int := asUintN 64 b.value

/-- `toCodePoint()`: the 21-bit residue, re-masked by `& 0x10FFFF` when it
exceeds the maximum Unicode scalar, rendered as UTF-16 code units. -/
def toCodePoint (b : BigIntCoercion) : List Nat :=
  if (asUintN 21 b.value).toNat > 0x10FFFF then
    utf16Units (Nat.land (asUintN 21 b.value).toNat 0x10FFFF)
  else
    utf16Units (asUintN 21 b.value).toNat

/-- `toHex(prefix)`: `value.toString(16)`, with `"0x"` prepended when the
flag is set (the source template is `` `0x${hex}` ``). -/
def toHex (b : BigIntCoercion) (pfx : Bool) : String :=
  if pfx then "0x" ++ bigIntToString 16 b.value else bigIntToString 16 b.value

/-- `toBinary(prefix)`: `value.toString(2)`, with `"0b"` prepended when the
flag is set. -/
def toBinary (b : BigIntCoercion) (pfx : Bool) : String :=
  if pfx then "0b" ++ bigIntToString 2 b.value else bigIntToString 2 b.value

/-- `toOctal(prefix)`: `value.toString(8)`, with `"0o"` prepended when the
flag is set. -/
def toOctal (b : BigIntCoercion) (pfx : Bool) : String :=
  if pfx then "0o" ++ bigIntToString 8 b.value else bigIntToString 8 b.value

/-- `toString(radix)`: `value.toString(radix)`. -/
def toString (b : BigIntCoercion) (radix : Nat) : String :=
  bigIntToString radix b.value

end BigIntCoercion

/-- Model of `String.fromCodePoint`, which throws a `RangeError` on
arguments above `0x10FFFF`. -/
def fromCodePointE (c : Nat) : Except String (List Nat) :=
  if c > 0x10FFFF then Except.error "RangeError: Invalid code point"
  else Except.ok (utf16Units c)

/-- `toCodePoint()` with the `String.fromCodePoint` range check made
explicit, to show the method can never raise. -/
def BigIntCoercion.toCodePointE (b : BigIntCoercion) : Except String (List Nat) :=
  if (asUintN 21 b.value).toNat > 0x10FFFF then
    fromCodePointE (Nat.land (asUintN 21 b.value).toNat 0x10FFFF)
  else
    fromCodePointE (asUintN 21 b.value).toNat

/-- `toString(radix)` with the range check of the underlying
`BigInt.prototype.toString` made explicit (it throws a `RangeError` when the
radix is outside 2..36), to show the method never raises on its documented
domain. -/
def BigIntCoercion.toStringE (b : BigIntCoercion) (radix : Nat) : Except String String :=
  if radix < 2 ∨ radix > 36 then
    Except.error "RangeError: toString() radix must be an integer between 2 and 36"
  else
    Except.ok (bigIntToString radix b.value)

/-- One Unicode scalar value encoded as its 1-4 UTF-8 bytes. -/
def utf8EncodeScalar (u : Nat) : List Nat :=
  if u < 0x80 then [u]
  else if u < 0x800 then [0xC0 + u / 0x40, 0x80 + u % 0x40]
  else if u < 0x10000 then
    [0xE0 + u / 0x1000, 0x80 + u / 0x40 % 0x40, 0x80 + u % 0x40]
  else
    [0xF0 + u / 0x40000, 0x80 + u / 0x1000 % 0x40, 0x80 + u / 0x40 % 0x40, 0x80 + u % 0x40]

/-- UTF-8 byte sequence of a string (the output contract of
`TextEncoder.prototype.encode`). -/
def utf8Encode (s : List Char) : List Nat :=
  (s.map fun c => utf8EncodeScalar c.toNat).flatten

/-- Model of a `TextEncoder` instance.  The `id` field stands for object
identity (distinct heap instances); per WHATWG a `TextEncoder` carries no
other state and always encodes UTF-8, so `encode` does not consult it. -/
structure TextEncoder where
  id : Nat

/-- `TextEncoder.prototype.encode`: UTF-8 bytes of the argument,
independent of the receiver instance. -/
def TextEncoder.encode (_e : TextEncoder) (s : List Char) : List Nat := utf8Encode s

/-- `padStart(len, c)` on a character list. -/
def padStart (len : Nat) (c : Char) (l : List Char) : List Char :=
  List.replicate (len - l.length) c ++ l

/-- `byte.toString(16).padStart(2, "0")`: the exactly-two-digit lowercase
hex rendering of one byte, as built in stringToBigInt's map step. -/
def byteToHexPair (b : Nat) : List Char :=
  padStart 2 '0' (toDigitsAux 16 (b + 1) b [])

/-- Numeric value of a digit character `0`-`9` / `a`-`z`. -/
def charToVal (c : Char) : Nat :=
  if 97 ≤ c.toNat then c.toNat - 87 else c.toNat - 48

/-- Base-`b` value of a digit-character list, most significant digit first.
For `b = 16` this models the `BigInt("0x...")` parse in stringToBigInt; it
is also the parser used to state the textual round-trip properties. -/
def parseDigits (b : Nat) (cs : List Char) : Nat :=
  cs.foldl (fun a c => a * b + charToVal c) 0

/-- Signed base-`b` parser: a leading minus sign negates the digit value. -/
def parseSigned (b : Nat) (s : String) : Int :=
  if s.data.head? = some '-' then -(parseDigits b s.data.tail : Int)
  else (parseDigits b s.data : Int)

/-- Strip a two-character marker (`0x` / `0b` / `0o`) from the front of a
rendered string. -/
def dropMarker (s : String) : String := String.mk (s.data.drop 2)

/-- Big-endian base-256 value of a byte sequence. -/
def bytesBE (bs : List Nat) : Nat := bs.foldl (fun a b => a * 256 + b) 0

/-- Model of `stringToBigInt` (src/str-to-bigint.ts): empty input
short-circuits to 0 before any byte processing; otherwise the UTF-8 bytes of
the seed are rendered as concatenated two-digit hex pairs and the hex string
is parsed back as a non-negative integer. -/
def stringToBigInt (seed : List Char) (encoder : Option TextEncoder) : BigIntCoercion :=
  if seed.length = 0 then ⟨0⟩
  else
    let textEncoder := encoder.getD ⟨0⟩
    let encoded := textEncoder.encode seed
    let hex := (encoded.map byteToHexPair).flatten
    ⟨(parseDigits 16 hex : Int)⟩

/-- A JavaScript value as seen by `typeof`: the kinds a caller can actually
pass to the two entry points. -/
inductive JSVal where
  | bigintVal (v : Int)
  | numberVal (n : Int)
  | stringVal (s : List Char)
  | boolVal (b : Bool)
  | nullVal
  | undefinedVal

/-- The JavaScript `typeof` operator on a `JSVal`. -/
def jsTypeof : JSVal → String
  | .bigintVal _ => "bigint"
  | .numberVal _ => "number"
  | .stringVal _ => "string"
  | .boolVal _ => "boolean"
  | .nullVal => "object"
  | .undefinedVal => "undefined"

/-- The JavaScript `String(value)` rendering used in the error messages
(number payloads are modelled as integers, rendered in decimal). -/
def jsStringOf : JSVal → String
  | .bigintVal v => bigIntToString 10 v
  | .numberVal n => bigIntToString 10 n
  | .stringVal s => String.mk s
  | .boolVal b => if b then "true" else "false"
  | .nullVal => "null"
  | .undefinedVal => "undefined"

/-- The `BigIntCoercion` constructor with its runtime type guard: succeeds
exactly on bigint inputs, otherwise throws a `TypeError` whose message names
the expected kind, the received kind and the rendered value. -/
def bigIntCoercionNew (x : JSVal) : Except String BigIntCoercion :=
  match x with
  | .bigintVal v => Except.ok ⟨v⟩
  | _ => Except.error
      ("Expected a bigint, but received " ++ jsTypeof x ++ ". Value: " ++ jsStringOf x)

/-- `stringToBigInt` with its runtime type guard: succeeds exactly on string
inputs, otherwise throws a `TypeError` whose message names the expected kind,
the received kind and the rendered value. -/
def stringToBigIntJS (x : JSVal) (encoder : Option TextEncoder) : Except String BigIntCoercion :=
  match x with
  | .stringVal s => Except.ok (stringToBigInt s encoder)
  | _ => Except.error
      ("Expected a string, but received " ++ jsTypeof x ++ ". Value: " ++ jsStringOf x)

/-! ### Helper lemmas -/

theorem data_of_append (a b : String) : (a ++ b).data = a.data ++ b.data := rfl

theorem charToVal_digitChar36_fin : ∀ d : Fin 36, charToVal (digitChar36 d.val) = d.val := by
  decide

theorem charToVal_digitChar36 (d : Nat) (hd : d < 36) : charToVal (digitChar36 d) = d :=
  charToVal_digitChar36_fin ⟨d, hd⟩

theorem digitChar36_ne_minus_fin : ∀ d : Fin 36, digitChar36 d.val ≠ '-' := by
  decide

theorem digitChar36_ne_minus (d : Nat) (hd : d < 36) : digitChar36 d ≠ '-' :=
  digitChar36_ne_minus_fin ⟨d, hd⟩

theorem toDigitsAux_append (b : Nat) :
    ∀ fuel n acc, toDigitsAux b fuel n acc = toDigitsAux b fuel n [] ++ acc := by
  intro fuel
  induction fuel with
  | zero => intro n acc; rfl
  | succ fuel ih =>
    intro n acc
    by_cases h : n < b
    · simp [toDigitsAux, h]
    · simp only [toDigitsAux, if_neg h]
      rw [ih (n / b) (digitChar36 (n % b) :: acc), ih (n / b) [digitChar36 (n % b)]]
      simp

theorem parseDigits_toDigitsAux (b : Nat) (hb2 : 2 ≤ b) (hb36 : b ≤ 36) :
    ∀ fuel n, n < fuel → parseDigits b (toDigitsAux b fuel n []) = n := by
  intro fuel
  induction fuel with
  | zero => intro n h; omega
  | succ fuel ih =>
    intro n hn
    by_cases h : n < b
    · simp only [toDigitsAux, if_pos h, parseDigits, List.foldl_cons, List.foldl_nil]
      rw [charToVal_digitChar36 n (by omega)]
      omega
    · have hdiv : n / b < n := Nat.div_lt_self (by omega) (by omega)
      have hrec := ih (n / b) (by omega)
      simp only [toDigitsAux, if_neg h]
      rw [toDigitsAux_append]
      unfold parseDigits at hrec ⊢
      rw [List.foldl_append, hrec]
      simp only [List.foldl_cons, List.foldl_nil]
      have hmod : n % b < b := Nat.mod_lt n (by omega)
      rw [charToVal_digitChar36 (n % b) (by omega)]
      exact Nat.div_add_mod' n b

theorem toDigitsAux_head (b : Nat) (hb2 : 2 ≤ b) :
    ∀ fuel n, n < fuel → ∃ d l, d < b ∧ toDigitsAux b fuel n [] = digitChar36 d :: l := by
  intro fuel
  induction fuel with
  | zero => intro n h; omega
  | succ fuel ih =>
    intro n hn
    by_cases h : n < b
    · exact ⟨n, [], h, by simp [toDigitsAux, h]⟩
    · have hdiv : n / b < n := Nat.div_lt_self (by omega) (by omega)
      obtain ⟨d, l, hd, hl⟩ := ih (n / b) (by omega)
      refine ⟨d, l ++ [digitChar36 (n % b)], hd, ?_⟩
      simp only [toDigitsAux, if_neg h]
      rw [toDigitsAux_append, hl]
      simp

theorem parseDigits_natToString (b n : Nat) (hb2 : 2 ≤ b) (hb36 : b ≤ 36) :
    parseDigits b (natToString b n).data = n :=
  parseDigits_toDigitsAux b hb2 hb36 (n + 1) n (Nat.lt_succ_self n)

theorem natToString_head (b n : Nat) (hb2 : 2 ≤ b) :
    ∃ d l, d < b ∧ (natToString b n).data = digitChar36 d :: l :=
  toDigitsAux_head b hb2 (n + 1) n (Nat.lt_succ_self n)

theorem parseSigned_minus (b : Nat) (s : String) :
    parseSigned b ("-" ++ s) = -(parseDigits b s.data : Int) := by
  unfold parseSigned
  have hdata : ("-" ++ s).data = '-' :: s.data := rfl
  rw [hdata]
  simp

theorem parseSigned_of_head_ne (b : Nat) (s : String) (h : s.data.head? ≠ some '-') :
    parseSigned b s = (parseDigits b s.data : Int) := by
  unfold parseSigned
  rw [if_neg h]

/-- The generic signed round trip: parsing `v.toString(radix)` back in the
same radix recovers `v` exactly. -/
theorem parseSigned_bigIntToString (radix : Nat) (v : Int)
    (hb2 : 2 ≤ radix) (hb36 : radix ≤ 36) :
    parseSigned radix (bigIntToString radix v) = v := by
  unfold bigIntToString
  by_cases hv : v < 0
  · rw [if_pos hv, parseSigned_minus, parseDigits_natToString radix v.natAbs hb2 hb36]
    omega
  · rw [if_neg hv]
    obtain ⟨d, l, hd, hl⟩ := natToString_head radix v.natAbs hb2
    have hne : digitChar36 d ≠ '-' := digitChar36_ne_minus d (by omega)
    rw [parseSigned_of_head_ne radix _ (by rw [hl]; simpa using hne)]
    rw [parseDigits_natToString radix v.natAbs hb2 hb36]
    omega

theorem dropMarker_append (a s : String) (ha : a.data.length = 2) :
    dropMarker (a ++ s) = s := by
  unfold dropMarker
  rw [data_of_append, ← ha, List.drop_left]

set_option maxRecDepth 4000 in
theorem byteToHexPair_eq_fin :
    ∀ b : Fin 256, byteToHexPair b.val =
      [digitChar36 (b.val / 16), digitChar36 (b.val % 16)] := by
  decide

theorem byteToHexPair_eq (b : Nat) (hb : b < 256) :
    byteToHexPair b = [digitChar36 (b / 16), digitChar36 (b % 16)] :=
  byteToHexPair_eq_fin ⟨b, hb⟩

theorem foldl_hexPair (a b : Nat) (hb : b < 256) :
    List.foldl (fun acc c => acc * 16 + charToVal c) a (byteToHexPair b) = a * 256 + b := by
  rw [byteToHexPair_eq b hb]
  simp only [List.foldl_cons, List.foldl_nil]
  rw [charToVal_digitChar36 (b / 16) (by omega), charToVal_digitChar36 (b % 16) (by omega)]
  omega

theorem foldl_hexFlatten :
    ∀ (bs : List Nat) (a : Nat), (∀ x ∈ bs, x < 256) →
      List.foldl (fun acc c => acc * 16 + charToVal c) a (bs.map byteToHexPair).flatten =
      List.foldl (fun acc x => acc * 256 + x) a bs := by
  intro bs
  induction bs with
  | nil => intro a _; rfl
  | cons x xs ih =>
    intro a h
    simp only [List.map_cons, List.flatten_cons, List.foldl_append, List.foldl_cons]
    rw [foldl_hexPair a x (h x (by simp))]
    exact ih (a * 256 + x) fun y hy => h y (by simp [hy])

theorem utf8EncodeScalar_lt (u : Nat) (hu : u < 1114112) :
    ∀ x ∈ utf8EncodeScalar u, x < 256 := by
  intro x hx
  unfold utf8EncodeScalar at hx
  split_ifs at hx with h1 h2 h3 <;> simp at hx <;> omega

theorem char_toNat_lt (c : Char) : c.toNat < 1114112 := by
  have h := c.valid
  rcases h with h | h
  · show c.val.toNat < 1114112
    omega
  · exact h.2

theorem utf8Encode_lt (s : List Char) : ∀ x ∈ utf8Encode s, x < 256 := by
  intro x hx
  unfold utf8Encode at hx
  simp only [List.mem_flatten, List.mem_map] at hx
  obtain ⟨l, ⟨c, _, rfl⟩, hxl⟩ := hx
  exact utf8EncodeScalar_lt c.toNat (char_toNat_lt c) x hxl

/-- The hex-string pipeline of `stringToBigInt` computes exactly the
big-endian base-256 value of the byte sequence. -/
theorem parseDigits_hex_bytesBE (bs : List Nat) (h : ∀ x ∈ bs, x < 256) :
    parseDigits 16 (bs.map byteToHexPair).flatten = bytesBE bs := by
  unfold parseDigits bytesBE
  exact foldl_hexFlatten bs 0 h

theorem value_mk (v : Int) : (BigIntCoercion.mk v).value = v := rfl

/-! ### Claim theorems -/

/-- C1: each unsigned conversion (`toUint8`/`toUint16`/`toUint32`/
`toBigUint64`) returns the mathematical non-negative residue `V mod 2^N`,
lies in `[0, 2^N - 1]`, and is periodic with period `2^N`; `toUint64`
returns the same residue whenever that residue is in the safe `Number`
range; in particular `toUint8 (-1) = 255` and `toBigUint64 (-1) = 2^64 - 1`. -/
theorem unsigned_conversions_are_mod_residues (v : Int) :
    ((v % 2 ^ 64).natAbs ≤ 2 ^ 53 - 1 →
      (BigIntCoercion.mk v).toUint64 = some (v % 2 ^ 64)) ∧
    ((BigIntCoercion.mk v).toUint8 = v % 2 ^ 8 ∧
      0 ≤ (BigIntCoercion.mk v).toUint8 ∧
      (BigIntCoercion.mk v).toUint8 ≤ 2 ^ 8 - 1 ∧
      (BigIntCoercion.mk (v + 2 ^ 8)).toUint8 = (BigIntCoercion.mk v).toUint8 ∧
      (BigIntCoercion.mk (v - 2 ^ 8)).toUint8 = (BigIntCoercion.mk v).toUint8) ∧
    ((BigIntCoercion.mk v).toUint16 = v % 2 ^ 16 ∧
      0 ≤ (BigIntCoercion.mk v).toUint16 ∧
      (BigIntCoercion.mk v).toUint16 ≤ 2 ^ 16 - 1 ∧
      (BigIntCoercion.mk (v + 2 ^ 16)).toUint16 = (BigIntCoercion.mk v).toUint16 ∧
      (BigIntCoercion.mk (v - 2 ^ 16)).toUint16 = (BigIntCoercion.mk v).toUint16) ∧
    ((BigIntCoercion.mk v).toUint32 = v % 2 ^ 32 ∧
      0 ≤ (BigIntCoercion.mk v).toUint32 ∧
      (BigIntCoercion.mk v).toUint32 ≤ 2 ^ 32 - 1 ∧
      (BigIntCoercion.mk (v + 2 ^ 32)).toUint32 = (BigIntCoercion.mk v).toUint32 ∧
      (BigIntCoercion.mk (v - 2 ^ 32)).toUint32 = (BigIntCoercion.mk v).toUint32) ∧
    ((BigIntCoercion.mk v).toBigUint64 = v % 2 ^ 64 ∧
      0 ≤ (BigIntCoercion.mk v).toBigUint64 ∧
      (BigIntCoercion.mk v).toBigUint64 ≤ 2 ^ 64 - 1 ∧
      (BigIntCoercion.mk (v + 2 ^ 64)).toBigUint64 = (BigIntCoercion.mk v).toBigUint64 ∧
      (BigIntCoercion.mk (v - 2 ^ 64)).toBigUint64 = (BigIntCoercion.mk v).toBigUint64) ∧
    (BigIntCoercion.mk (-1)).toUint8 = 255 ∧
    (BigIntCoercion.mk (-1)).toBigUint64 = 2 ^ 64 - 1 := by
  refine ⟨?_, ?_, ?_, ?_, ?_, by decide, by decide⟩
  · intro h
    unfold BigIntCoercion.toUint64 numberFromBigInt asUintN
    simp only [value_mk]
    rw [if_pos h]
  all_goals
    simp only [BigIntCoercion.toUint8, BigIntCoercion.toUint16, BigIntCoercion.toUint32,
      BigIntCoercion.toBigUint64, asUintN, value_mk]
    refine ⟨by trivial, ?_, ?_, ?_, ?_⟩ <;> omega

/-- C1 witness: the `toUint64` safe-range hypothesis discharged at `v = 7`. -/
theorem unsigned_conversions_are_mod_residues_witness :
    ((7 : Int) % 2 ^ 64).natAbs ≤ 2 ^ 53 - 1 ∧
    (BigIntCoercion.mk 7).toUint64 = some (7 % 2 ^ 64) :=
  ⟨by decide, (unsigned_conversions_are_mod_residues 7).1 (by decide)⟩

/-- C2: each signed conversion (`toInt8`/`toInt16`/`toInt32`/`toBigInt64`)
is the two's-complement reading of the unsigned `N`-bit residue: it equals
the residue when the residue is below `2^(N-1)` and `residue - 2^N`
otherwise, lies in `[-2^(N-1), 2^(N-1) - 1]`, and satisfies
`toUnsignedN V = toSignedN V mod 2^N`; in particular
`toBigInt64 (2^63) = -2^63`. -/
theorem signed_conversions_twos_complement (v : Int) :
    ((v % 2 ^ 8 < 2 ^ 7 → (BigIntCoercion.mk v).toInt8 = v % 2 ^ 8) ∧
      (2 ^ 7 ≤ v % 2 ^ 8 → (BigIntCoercion.mk v).toInt8 = v % 2 ^ 8 - 2 ^ 8) ∧
      -(2 ^ 7) ≤ (BigIntCoercion.mk v).toInt8 ∧
      (BigIntCoercion.mk v).toInt8 ≤ 2 ^ 7 - 1 ∧
      (BigIntCoercion.mk v).toUint8 = (BigIntCoercion.mk v).toInt8 % 2 ^ 8) ∧
    ((v % 2 ^ 16 < 2 ^ 15 → (BigIntCoercion.mk v).toInt16 = v % 2 ^ 16) ∧
      (2 ^ 15 ≤ v % 2 ^ 16 → (BigIntCoercion.mk v).toInt16 = v % 2 ^ 16 - 2 ^ 16) ∧
      -(2 ^ 15) ≤ (BigIntCoercion.mk v).toInt16 ∧
      (BigIntCoercion.mk v).toInt16 ≤ 2 ^ 15 - 1 ∧
      (BigIntCoercion.mk v).toUint16 = (BigIntCoercion.mk v).toInt16 % 2 ^ 16) ∧
    ((v % 2 ^ 32 < 2 ^ 31 → (BigIntCoercion.mk v).toInt32 = v % 2 ^ 32) ∧
      (2 ^ 31 ≤ v % 2 ^ 32 → (BigIntCoercion.mk v).toInt32 = v % 2 ^ 32 - 2 ^ 32) ∧
      -(2 ^ 31) ≤ (BigIntCoercion.mk v).toInt32 ∧
      (BigIntCoercion.mk v).toInt32 ≤ 2 ^ 31 - 1 ∧
      (BigIntCoercion.mk v).toUint32 = (BigIntCoercion.mk v).toInt32 % 2 ^ 32) ∧
    ((v % 2 ^ 64 < 2 ^ 63 → (BigIntCoercion.mk v).toBigInt64 = v % 2 ^ 64) ∧
      (2 ^ 63 ≤ v % 2 ^ 64 → (BigIntCoercion.mk v).toBigInt64 = v % 2 ^ 64 - 2 ^ 64) ∧
      -(2 ^ 63) ≤ (BigIntCoercion.mk v).toBigInt64 ∧
      (BigIntCoercion.mk v).toBigInt64 ≤ 2 ^ 63 - 1 ∧
      (BigIntCoercion.mk v).toBigUint64 = (BigIntCoercion.mk v).toBigInt64 % 2 ^ 64) ∧
    (BigIntCoercion.mk (2 ^ 63)).toBigInt64 = -(2 ^ 63) := by
  have e8 : (BigIntCoercion.mk v).toInt8 =
      if v % 2 ^ 8 < 2 ^ 7 then v % 2 ^ 8 else v % 2 ^ 8 - 2 ^ 8 := rfl
  have e16 : (BigIntCoercion.mk v).toInt16 =
      if v % 2 ^ 16 < 2 ^ 15 then v % 2 ^ 16 else v % 2 ^ 16 - 2 ^ 16 := rfl
  have e32 : (BigIntCoercion.mk v).toInt32 =
      if v % 2 ^ 32 < 2 ^ 31 then v % 2 ^ 32 else v % 2 ^ 32 - 2 ^ 32 := rfl
  have e64 : (BigIntCoercion.mk v).toBigInt64 =
      if v % 2 ^ 64 < 2 ^ 63 then v % 2 ^ 64 else v % 2 ^ 64 - 2 ^ 64 := rfl
  have u8 : (BigIntCoercion.mk v).toUint8 = v % 2 ^ 8 := rfl
  have u16 : (BigIntCoercion.mk v).toUint16 = v % 2 ^ 16 := rfl
  have u32 : (BigIntCoercion.mk v).toUint32 = v % 2 ^ 32 := rfl
  have u64 : (BigIntCoercion.mk v).toBigUint64 = v % 2 ^ 64 := rfl
  refine ⟨⟨?_, ?_, ?_, ?_, ?_⟩, ⟨?_, ?_, ?_, ?_, ?_⟩, ⟨?_, ?_, ?_, ?_, ?_⟩,
    ⟨?_, ?_, ?_, ?_, ?_⟩, by decide⟩ <;>
    simp only [e8, e16, e32, e64, u8, u16, u32, u64] <;>
    split_ifs <;> omega

/-- C2 witness: the residue-case hypotheses discharged at `v = 5` (low
residue) and `v = 200` (high residue), for width 8. -/
theorem signed_conversions_twos_complement_witness :
    (5 : Int) % 2 ^ 8 < 2 ^ 7 ∧ (BigIntCoercion.mk 5).toInt8 = 5 % 2 ^ 8 ∧
    2 ^ 7 ≤ (200 : Int) % 2 ^ 8 ∧ (BigIntCoercion.mk 200).toInt8 = 200 % 2 ^ 8 - 2 ^ 8 :=
  ⟨by decide, (signed_conversions_twos_complement 5).1.1 (by decide),
    by decide, (signed_conversions_twos_complement 200).1.2.1 (by decide)⟩

/-- C5: `toAbsInt32` is the absolute value reduced modulo `2^31`, lies in
`[0, 2^31 - 1]`, erases the sign (`toAbsInt32 V = toAbsInt32 (-V)`), and is
not the absolute value of the signed-32 conversion (witness `V = 2^31`). -/
theorem toAbsInt32_is_abs_mod (v : Int) :
    (BigIntCoercion.mk v).toAbsInt32 = |v| % 2 ^ 31 ∧
    0 ≤ (BigIntCoercion.mk v).toAbsInt32 ∧
    (BigIntCoercion.mk v).toAbsInt32 ≤ 2 ^ 31 - 1 ∧
    (BigIntCoercion.mk v).toAbsInt32 = (BigIntCoercion.mk (-v)).toAbsInt32 ∧
    ∃ w : Int, (BigIntCoercion.mk w).toAbsInt32 ≠ |(BigIntCoercion.mk w).toInt32| := by
  have ev : ∀ u : Int, (BigIntCoercion.mk u).toAbsInt32 =
      (if u < 0 then -u else u) % 2 ^ 31 := fun u => rfl
  have habs : |v| = if v < 0 then -v else v := by
    by_cases h : v < 0
    · rw [if_pos h, abs_of_neg h]
    · rw [if_neg h, abs_of_nonneg (by omega)]
  refine ⟨?_, ?_, ?_, ?_, ⟨2 ^ 31, by decide⟩⟩
  · rw [ev, habs]
  · rw [ev]; split_ifs <;> omega
  · rw [ev]; split_ifs <;> omega
  · rw [ev, ev]; split_ifs <;> omega

/-- C4 counterexample: the source prepends the marker to the already-signed
rendering, so `toHex(true)` of `-255` is `"0x-ff"`, not `"-0xff"` with the
minus sign ahead of the marker. -/
theorem radix_render_negative_counterexample :
    ¬ ((BigIntCoercion.mk (-255)).toHex true = "-0xff") := by
  decide

/-- C4 (amended): for every negative `V`, `toHex(true)`, `toBinary(true)`
and `toOctal(true)` render the exact unwrapped magnitude of `V` in base
16/2/8 with a minus sign, but the marker comes first and the minus sign
sits between the marker and the digits: marker, then `-`, then digits;
e.g. `toHex` of `-255` with the marker enabled yields `"0x-ff"`. -/
theorem radix_render_negative (v : Int) (hv : v < 0) :
    ((BigIntCoercion.mk v).toHex true).data =
      '0' :: 'x' :: '-' :: (natToString 16 v.natAbs).data ∧
    ((BigIntCoercion.mk v).toBinary true).data =
      '0' :: 'b' :: '-' :: (natToString 2 v.natAbs).data ∧
    ((BigIntCoercion.mk v).toOctal true).data =
      '0' :: 'o' :: '-' :: (natToString 8 v.natAbs).data ∧
    (BigIntCoercion.mk (-255)).toHex true = "0x-ff" := by
  refine ⟨?_, ?_, ?_, by decide⟩
  · unfold BigIntCoercion.toHex bigIntToString
    rw [value_mk, if_pos hv]
    rfl
  · unfold BigIntCoercion.toBinary bigIntToString
    rw [value_mk, if_pos hv]
    rfl
  · unfold BigIntCoercion.toOctal bigIntToString
    rw [value_mk, if_pos hv]
    rfl

/-- C4 witness: the negativity hypothesis discharged at `v = -255`. -/
theorem radix_render_negative_witness :
    (-255 : Int) < 0 ∧
    ((BigIntCoercion.mk (-255)).toHex true).data =
      '0' :: 'x' :: '-' :: (natToString 16 (Int.natAbs (-255))).data :=
  ⟨by decide, (radix_render_negative (-255) (by decide)).1⟩

/-- C8: parsing the `toString(radix)` output back as a signed base-radix
integer reproduces `V` exactly for every radix in `[2, 36]`; likewise
`toHex`, `toBinary` and `toOctal` round-trip in base 16/2/8 after stripping
the two-character marker (when present) and respecting the sign. -/
theorem textual_roundtrip (v : Int) (radix : Nat) (h2 : 2 ≤ radix) (h36 : radix ≤ 36) :
    parseSigned radix ((BigIntCoercion.mk v).toString radix) = v ∧
    parseSigned 16 (dropMarker ((BigIntCoercion.mk v).toHex true)) = v ∧
    parseSigned 16 ((BigIntCoercion.mk v).toHex false) = v ∧
    parseSigned 2 (dropMarker ((BigIntCoercion.mk v).toBinary true)) = v ∧
    parseSigned 2 ((BigIntCoercion.mk v).toBinary false) = v ∧
    parseSigned 8 (dropMarker ((BigIntCoercion.mk v).toOctal true)) = v ∧
    parseSigned 8 ((BigIntCoercion.mk v).toOctal false) = v := by
  have hx : (BigIntCoercion.mk v).toHex true = "0x" ++ bigIntToString 16 v := rfl
  have hxf : (BigIntCoercion.mk v).toHex false = bigIntToString 16 v := rfl
  have hb : (BigIntCoercion.mk v).toBinary true = "0b" ++ bigIntToString 2 v := rfl
  have hbf : (BigIntCoercion.mk v).toBinary false = bigIntToString 2 v := rfl
  have ho : (BigIntCoercion.mk v).toOctal true = "0o" ++ bigIntToString 8 v := rfl
  have hof : (BigIntCoercion.mk v).toOctal false = bigIntToString 8 v := rfl
  have hs : (BigIntCoercion.mk v).toString radix = bigIntToString radix v := rfl
  refine ⟨?_, ?_, ?_, ?_, ?_, ?_, ?_⟩
  · rw [hs]; exact parseSigned_bigIntToString radix v h2 h36
  · rw [hx, dropMarker_append _ _ (by decide)]
    exact parseSigned_bigIntToString 16 v (by decide) (by decide)
  · rw [hxf]; exact parseSigned_bigIntToString 16 v (by decide) (by decide)
  · rw [hb, dropMarker_append _ _ (by decide)]
    exact parseSigned_bigIntToString 2 v (by decide) (by decide)
  · rw [hbf]; exact parseSigned_bigIntToString 2 v (by decide) (by decide)
  · rw [ho, dropMarker_append _ _ (by decide)]
    exact parseSigned_bigIntToString 8 v (by decide) (by decide)
  · rw [hof]; exact parseSigned_bigIntToString 8 v (by decide) (by decide)

/-- C8 witness: the radix-range hypotheses discharged at radix 10, `v = -42`. -/
theorem textual_roundtrip_witness :
    2 ≤ 10 ∧ (10 : Nat) ≤ 36 ∧
    parseSigned 10 ((BigIntCoercion.mk (-42)).toString 10) = -42 :=
  ⟨by decide, by decide, (textual_roundtrip (-42) 10 (by decide) (by decide)).1⟩

/-- C3: `stringToBigInt` wraps the big-endian base-256 value of the UTF-8
bytes of the input (the concatenated two-digit-hex pipeline computes exactly
that); the empty string short-circuits to 0; `"A"` encodes to 65 and `"AB"`
to `0x4142`. -/
theorem stringToBigInt_bigEndian_bytes (s : List Char) :
    (stringToBigInt s none).toBigInt = (bytesBE (utf8Encode s) : Int) ∧
    (stringToBigInt [] none).toBigInt = 0 ∧
    (stringToBigInt ['A'] none).toBigInt = 65 ∧
    (stringToBigInt ['A', 'B'] none).toBigInt = 0x4142 := by
  refine ⟨?_, by decide, by decide, by decide⟩
  cases s with
  | nil => rfl
  | cons c cs =>
    show (↑(parseDigits 16 ((utf8Encode (c :: cs)).map byteToHexPair).flatten) : Int) =
      (↑(bytesBE (utf8Encode (c :: cs))) : Int)
    rw [parseDigits_hex_bytesBE _ (utf8Encode_lt (c :: cs))]

/-- C6: `toCodePoint` renders the scalar `c = V mod 2^21` when
`c ≤ 0x10FFFF`, and otherwise the re-masked `c AND 0x10FFFF`; the rendering
takes one UTF-16 code unit for scalars below `0x10000` and two for scalars
at or above it. -/
theorem toCodePoint_masked_scalar (v : Int) :
    ((asUintN 21 v).toNat ≤ 0x10FFFF →
      (BigIntCoercion.mk v).toCodePoint = utf16Units (asUintN 21 v).toNat) ∧
    (0x10FFFF < (asUintN 21 v).toNat →
      (BigIntCoercion.mk v).toCodePoint =
        utf16Units (Nat.land (asUintN 21 v).toNat 0x10FFFF)) ∧
    (∀ m : Nat, m < 0x10000 → (utf16Units m).length = 1) ∧
    (∀ m : Nat, 0x10000 ≤ m → (utf16Units m).length = 2) ∧
    ((BigIntCoercion.mk v).toCodePoint.length = 1 ∨
      (BigIntCoercion.mk v).toCodePoint.length = 2) := by
  have et : (BigIntCoercion.mk v).toCodePoint =
      if (asUintN 21 v).toNat > 0x10FFFF then
        utf16Units (Nat.land (asUintN 21 v).toNat 0x10FFFF)
      else utf16Units (asUintN 21 v).toNat := rfl
  have hlen1 : ∀ m : Nat, m < 0x10000 → (utf16Units m).length = 1 := by
    intro m hm
    unfold utf16Units
    rw [if_pos hm]
    rfl
  have hlen2 : ∀ m : Nat, 0x10000 ≤ m → (utf16Units m).length = 2 := by
    intro m hm
    unfold utf16Units
    rw [if_neg (by omega)]
    rfl
  refine ⟨?_, ?_, hlen1, hlen2, ?_⟩
  · intro h
    rw [et, if_neg (by omega)]
  · intro h
    rw [et, if_pos h]
  · rw [et]
    split_ifs with h
    · by_cases hm : Nat.land (asUintN 21 v).toNat 0x10FFFF < 0x10000
      · exact Or.inl (hlen1 _ hm)
      · exact Or.inr (hlen2 _ (by omega))
    · by_cases hm : (asUintN 21 v).toNat < 0x10000
      · exact Or.inl (hlen1 _ hm)
      · exact Or.inr (hlen2 _ (by omega))

/-- C6 witness: the branch hypotheses discharged at `v = 65` (valid scalar)
and `v = 0x110000` (21-bit residue above the Unicode maximum, re-masked). -/
theorem toCodePoint_masked_scalar_witness :
    (asUintN 21 (65 : Int)).toNat ≤ 0x10FFFF ∧
    (BigIntCoercion.mk 65).toCodePoint = utf16Units (asUintN 21 (65 : Int)).toNat ∧
    0x10FFFF < (asUintN 21 (0x110000 : Int)).toNat ∧
    (BigIntCoercion.mk 0x110000).toCodePoint =
      utf16Units (Nat.land (asUintN 21 (0x110000 : Int)).toNat 0x10FFFF) :=
  ⟨by decide, (toCodePoint_masked_scalar 65).1 (by decide),
    by decide, (toCodePoint_masked_scalar 0x110000).2.1 (by decide)⟩

/-- C7: an operation raises exactly when entry-point type validation fails:
construction errors iff the value is not a bigint and `stringToBigInt`
errors iff the seed is not a string, in both cases with a message naming
the expected kind, the received kind and the rendered value; the other
operations never raise — in particular the internal `String.fromCodePoint`
range check can never fire thanks to the mask, and the `toString` radix
check cannot fire on the documented domain 2..36. -/
theorem errors_exactly_on_type_validation (x : JSVal) (enc : Option TextEncoder) :
    ((∃ e, bigIntCoercionNew x = Except.error e) ↔ jsTypeof x ≠ "bigint") ∧
    (∀ w : Int, bigIntCoercionNew (JSVal.bigintVal w) = Except.ok ⟨w⟩) ∧
    (jsTypeof x ≠ "bigint" → bigIntCoercionNew x = Except.error
      ("Expected a bigint, but received " ++ jsTypeof x ++ ". Value: " ++ jsStringOf x)) ∧
    ((∃ e, stringToBigIntJS x enc = Except.error e) ↔ jsTypeof x ≠ "string") ∧
    (∀ s : List Char, stringToBigIntJS (JSVal.stringVal s) enc =
      Except.ok (stringToBigInt s enc)) ∧
    (jsTypeof x ≠ "string" → stringToBigIntJS x enc = Except.error
      ("Expected a string, but received " ++ jsTypeof x ++ ". Value: " ++ jsStringOf x)) ∧
    (∀ b : BigIntCoercion, b.toCodePointE = Except.ok b.toCodePoint) ∧
    (∀ b : BigIntCoercion, ∀ r : Nat, 2 ≤ r → r ≤ 36 →
      b.toStringE r = Except.ok (b.toString r)) := by
  have h1 : (∃ e, bigIntCoercionNew x = Except.error e) ↔ jsTypeof x ≠ "bigint" := by
    cases x <;> simp [bigIntCoercionNew, jsTypeof]
  have h3 : jsTypeof x ≠ "bigint" → bigIntCoercionNew x = Except.error
      ("Expected a bigint, but received " ++ jsTypeof x ++ ". Value: " ++ jsStringOf x) := by
    cases x <;> intro h
    · exact absurd rfl h
    all_goals rfl
  have h4 : (∃ e, stringToBigIntJS x enc = Except.error e) ↔ jsTypeof x ≠ "string" := by
    cases x <;> simp [stringToBigIntJS, jsTypeof]
  have h6 : jsTypeof x ≠ "string" → stringToBigIntJS x enc = Except.error
      ("Expected a string, but received " ++ jsTypeof x ++ ". Value: " ++ jsStringOf x) := by
    cases x <;> intro h
    · rfl
    · rfl
    · exact absurd rfl h
    all_goals rfl
  have h7 : ∀ b : BigIntCoercion, b.toCodePointE = Except.ok b.toCodePoint := by
    intro b
    unfold BigIntCoercion.toCodePointE BigIntCoercion.toCodePoint fromCodePointE
    split_ifs with hc hd
    · exact absurd hd (Nat.not_lt.mpr Nat.and_le_right)
    · rfl
    · rfl
  have h8 : ∀ b : BigIntCoercion, ∀ r : Nat, 2 ≤ r → r ≤ 36 →
      b.toStringE r = Except.ok (b.toString r) := by
    intro b r hr2 hr36
    unfold BigIntCoercion.toStringE
    rw [if_neg (by omega)]
    rfl
  exact ⟨h1, fun w => rfl, h3, h4, fun s => rfl, h6, h7, h8⟩

/-- C7 witness: the non-bigint hypothesis discharged at a number value, and
the radix hypotheses discharged at radix 10. -/
theorem errors_exactly_on_type_validation_witness :
    jsTypeof (JSVal.numberVal 42) ≠ "bigint" ∧
    bigIntCoercionNew (JSVal.numberVal 42) = Except.error
      ("Expected a bigint, but received " ++ jsTypeof (JSVal.numberVal 42) ++
        ". Value: " ++ jsStringOf (JSVal.numberVal 42)) ∧
    (BigIntCoercion.mk 5).toStringE 10 = Except.ok ((BigIntCoercion.mk 5).toString 10) :=
  ⟨by decide,
    (errors_exactly_on_type_validation (JSVal.numberVal 42) none).2.2.1 (by decide),
    (errors_exactly_on_type_validation (JSVal.numberVal 42) none).2.2.2.2.2.2.2
      (BigIntCoercion.mk 5) 10 (by decide) (by decide)⟩

/-- C9: the seed encoding depends only on the input text, never on which
encoder instance (or none) performed the byte encoding. -/
theorem encoder_instance_independence (s : List Char) (a b : TextEncoder) :
    (stringToBigInt s (some a)).toBigInt = (stringToBigInt s (some b)).toBigInt ∧
    (stringToBigInt s (some a)).toBigInt = (stringToBigInt s none).toBigInt :=
  ⟨rfl, rfl⟩

/-- C10: a leading NUL character contributes only leading zero hex digits,
so it is invisible to the encoder: `encode("\0" + s) = encode(s)`; the NUL
string collides with the empty string at value 0, and distinct non-empty
inputs can collide (`"\0A"` with `"A"`). -/
theorem leading_nul_invisible (s : List Char) :
    (stringToBigInt (Char.ofNat 0 :: s) none).toBigInt =
      (stringToBigInt s none).toBigInt ∧
    (stringToBigInt [Char.ofNat 0] none).toBigInt = 0 ∧
    (stringToBigInt [] none).toBigInt = 0 ∧
    ([Char.ofNat 0, 'A'] : List Char) ≠ ['A'] ∧
    (stringToBigInt [Char.ofNat 0, 'A'] none).toBigInt =
      (stringToBigInt ['A'] none).toBigInt ∧
    ([Char.ofNat 0] : List Char) ≠ [] := by
  refine ⟨?_, by decide, by decide, by decide, by decide, by decide⟩
  cases s with
  | nil => decide
  | cons c cs => rfl
